import Mathlib

/-!
Verification of the symbol-classification module `data_provider/us_index_mapping.py`.

The module is a pure string-processing utility: it normalizes a user-entered
ticker code (trim whitespace, uppercase), classifies it against two static
index tables (US, Japan) and two anchored regular expressions (US stock,
Japan stock), and translates it to the market-data provider's symbol format.

Shallow embedding conventions:
* A Python `str` is a Lean `String` (a list of unicode scalar `Char`s).
  A possibly-`None` argument is an `Option String`; `code or ''` is `Option.getD`.
* `str.strip` / `str.upper` / `str.isdigit` are modelled character-wise over
  the character ranges this module can meet: ASCII whitespace for `strip`,
  the ASCII letters for `upper`, and for `isdigit` the ASCII decimal digits
  plus the Latin-1 superscript digits U+00B9 U+00B2 U+00B3 (which CPython's
  `str.isdigit` accepts although the regex class `\d` — Unicode category Nd —
  rejects them; other non-ASCII digit characters, accepted by both `isdigit`
  and `\d`, are symmetrically outside the model).
* The anchored regexes are transcribed as executable predicates on `List Char`;
  each alternative of `^(JP\d` `{4}|\d` `{4}(\.T)?)$` fixes the length of the whole
  match, and in `^[A-Z]` `{1,5}(\.[A-Z])?$` the character class `[A-Z]` is
  disjoint from `.`, so the greedy, backtracking-free transcriptions below are
  exactly the regex languages.  The functions are applied only to stripped
  strings, so `$` (which in Python also matches before a final newline) is an
  end-of-string anchor.
* A Python pair `(symbol_or_None, name_or_None)` is an `Option String × Option String`.
-/

/-- The six ASCII whitespace characters removed by `str.strip`:
space (32), tab (9), newline (10), vertical tab (11), form feed (12),
carriage return (13). -/
def pyIsSpace (c : Char) : Bool :=
  c.toNat = 32 || c.toNat = 9 || c.toNat = 10 || c.toNat = 11 || c.toNat = 12 || c.toNat = 13

/-- `str.upper`, character-wise on ASCII: `a`..`z` (97..122) map down by 32 to
`A`..`Z`; every other character is unchanged. -/
def pyToUpper (c : Char) : Char :=
  if 97 ≤ c.toNat ∧ c.toNat ≤ 122 then Char.ofNat (c.toNat - 32) else c

/-- The regex character class `\d` restricted to the model's character range:
the ASCII decimal digits `0`..`9` (48..57). -/
def reDigit (c : Char) : Bool :=
  48 ≤ c.toNat && c.toNat ≤ 57

/-- A character accepted by `str.isdigit`: the decimal digits together with the
superscript digits `¹` (185), `²` (178), `³` (179), which are `isdigit`-true
in CPython but are not in the regex class `\d`. -/
def pyIsDigitChar (c : Char) : Bool :=
  reDigit c || c.toNat = 185 || c.toNat = 178 || c.toNat = 179

/-- `str.isdigit`: true iff the string is nonempty and every character is a
digit character. -/
def pyIsDigit (l : List Char) : Bool :=
  !l.isEmpty && l.all pyIsDigitChar

/-- `str.strip`: remove the longest run of whitespace from the front, then from
the back. -/
def pyStrip (l : List Char) : List Char :=
  List.rdropWhile pyIsSpace (l.dropWhile pyIsSpace)

/-- The normalization `(code or '').strip().upper()` applied by every public
function of the module. -/
def normCode (code : Option String) : String :=
  String.mk ((pyStrip (code.getD "").data).map pyToUpper)

/-- `_US_STOCK_PATTERN = re.compile` of the anchored regex
`[A-Z]` `{1,5}` then optionally `.` and one `[A-Z]`: a maximal run of 1–5
uppercase letters, optionally followed by a dot and a single uppercase letter,
and nothing else.  Since `[A-Z]` never matches `.`, the maximal-run split is
the only split the regex engine could use, so this is a full-string match of
the regex. -/
def usStockPattern (l : List Char) : Bool :=
  let letters := l.takeWhile (fun c => 65 ≤ c.toNat && c.toNat ≤ 90)
  let rest := l.drop letters.length
  if 1 ≤ letters.length ∧ letters.length ≤ 5 then
    match rest with
    | [] => true
    | [dot, c] => dot = '.' && (65 ≤ c.toNat && c.toNat ≤ 90)
    | _ => false
  else false

/-- `US_INDEX_MAPPING`: user input -> (Yahoo Finance symbol, Chinese name),
in source order. -/
def US_INDEX_MAPPING : List (String × String × String) :=
  [("SPX", "^GSPC", "标普500指数"),
   ("^GSPC", "^GSPC", "标普500指数"),
   ("GSPC", "^GSPC", "标普500指数"),
   ("DJI", "^DJI", "道琼斯工业指数"),
   ("^DJI", "^DJI", "道琼斯工业指数"),
   ("DJIA", "^DJI", "道琼斯工业指数"),
   ("IXIC", "^IXIC", "纳斯达克综合指数"),
   ("^IXIC", "^IXIC", "纳斯达克综合指数"),
   ("NASDAQ", "^IXIC", "纳斯达克综合指数"),
   ("NDX", "^NDX", "纳斯达克100指数"),
   ("^NDX", "^NDX", "纳斯达克100指数"),
   ("VIX", "^VIX", "VIX恐慌指数"),
   ("^VIX", "^VIX", "VIX恐慌指数"),
   ("RUT", "^RUT", "罗素2000指数"),
   ("^RUT", "^RUT", "罗素2000指数")]

/-- Dictionary lookup `US_INDEX_MAPPING.get(k)` (keys are unique). -/
def usIndexLookup (k : String) : Option (String × String) :=
  (US_INDEX_MAPPING.find? (fun e => e.1 == k)).map (fun e => e.2)

/-- `is_us_index_code`: normalized code is a key of the US index table. -/
def is_us_index_code (code : Option String) : Bool :=
  (usIndexLookup (normCode code)).isSome

/-- `is_us_stock_code`: a US index key is never a stock; otherwise match the
US stock pattern. -/
def is_us_stock_code (code : Option String) : Bool :=
  if (usIndexLookup (normCode code)).isSome then false
  else usStockPattern (normCode code).data

/-- `get_us_index_yf_symbol`: table lookup, `(None, None)` when absent. -/
def get_us_index_yf_symbol (code : Option String) : Option String × Option String :=
  match usIndexLookup (normCode code) with
  | some p => (some p.1, some p.2)
  | none => (none, none)

/-- `JP_INDEX_MAPPING`: user input -> (Yahoo Finance symbol, Chinese name). -/
def JP_INDEX_MAPPING : List (String × String × String) :=
  [("N225", "^N225", "日经225指数"),
   ("^N225", "^N225", "日经225指数"),
   ("NIKKEI", "^N225", "日经225指数"),
   ("TOPIX", "^TOPX", "东证指数"),
   ("^TOPX", "^TOPX", "东证指数")]

/-- Dictionary lookup `JP_INDEX_MAPPING.get(k)`. -/
def jpIndexLookup (k : String) : Option (String × String) :=
  (JP_INDEX_MAPPING.find? (fun e => e.1 == k)).map (fun e => e.2)

/-- First alternative `JP\d` `{4}` of `_JP_STOCK_PATTERN`, with `re.IGNORECASE`:
six characters, the first two being `J`/`j` and `P`/`p`, the rest decimal
digits. -/
def jpAlt1CI (l : List Char) : Bool :=
  l.length == 6 &&
    (l.take 2 == ['J', 'P'] || l.take 2 == ['J', 'p'] ||
     l.take 2 == ['j', 'P'] || l.take 2 == ['j', 'p']) &&
    (l.drop 2).all reDigit

/-- Second alternative `\d` `{4}` (no letters, so the IGNORECASE flag is moot
here): exactly four decimal digits. -/
def jpAlt2 (l : List Char) : Bool :=
  l.length == 4 && l.all reDigit

/-- Third alternative `\d` `{4}\.T` with `re.IGNORECASE`: four decimal digits,
a dot, and `T`/`t`. -/
def jpAlt3CI (l : List Char) : Bool :=
  l.length == 6 && (l.take 4).all reDigit &&
    (l.drop 4 == ['.', 'T'] || l.drop 4 == ['.', 't'])

/-- `_JP_STOCK_PATTERN` as compiled in the source, i.e. with `re.IGNORECASE`:
the anchored regex `(JP\d` `{4}|\d` `{4}(\.T)?)` — each alternative fixes the
length of the match, so the disjunction of the three length-anchored
alternatives is exactly the regex language. -/
def jpStockPatternCI (l : List Char) : Bool :=
  jpAlt1CI l || jpAlt2 l || jpAlt3CI l

/-- First alternative of the same pattern compiled case-sensitively. -/
def jpAlt1CS (l : List Char) : Bool :=
  l.length == 6 && l.take 2 == ['J', 'P'] && (l.drop 2).all reDigit

/-- Third alternative of the same pattern compiled case-sensitively. -/
def jpAlt3CS (l : List Char) : Bool :=
  l.length == 6 && (l.take 4).all reDigit && l.drop 4 == ['.', 'T']

/-- The Japan stock pattern compiled case-sensitively (no `re.IGNORECASE`),
the comparison point of the spec's redundancy remark. -/
def jpStockPatternCS (l : List Char) : Bool :=
  jpAlt1CS l || jpAlt2 l || jpAlt3CS l

/-- `is_jp_stock_code`: the (case-insensitive) Japan stock pattern matched
against the normalized code. -/
def is_jp_stock_code (code : Option String) : Bool :=
  jpStockPatternCI (normCode code).data

/-- The body of `get_jp_stock_yf_symbol` after normalization, clause for
clause: `startswith("JP")` is "the first two characters are `J`,`P`",
`endswith(".T")` is "the last two characters are `.`,`T`" (`drop (len-2)`,
which for `len < 2` is the whole string and so never equals `['.','T']` of
length 2 — as in Python), and `normalized[:-2]` / `normalized[2:]` are
`take (len-2)` / `drop 2`. -/
def jpTranslate (n : String) : Option String × Option String :=
  if n.data.take 2 = ['J', 'P'] ∧ n.data.length = 6 ∧ pyIsDigit (n.data.drop 2) then
    (some (String.mk (n.data.drop 2 ++ ['.', 'T'])), none)
  else if n.data.drop (n.data.length - 2) = ['.', 'T'] ∧
      pyIsDigit (n.data.take (n.data.length - 2)) ∧
      (n.data.take (n.data.length - 2)).length = 4 then
    (some n, none)
  else if pyIsDigit n.data ∧ n.data.length = 4 then
    (some (String.mk (n.data ++ ['.', 'T'])), none)
  else (none, none)

/-- `get_jp_stock_yf_symbol`: normalize, then translate. -/
def get_jp_stock_yf_symbol (code : Option String) : Option String × Option String :=
  jpTranslate (normCode code)

/-- `is_jp_index_code`: normalized code is a key of the Japan index table. -/
def is_jp_index_code (code : Option String) : Bool :=
  (jpIndexLookup (normCode code)).isSome

/-- `get_jp_index_yf_symbol`: table lookup, `(None, None)` when absent. -/
def get_jp_index_yf_symbol (code : Option String) : Option String × Option String :=
  match jpIndexLookup (normCode code) with
  | some p => (some p.1, some p.2)
  | none => (none, none)

/-! ### Character-level facts -/

/-- `Char.ofNat` of a scalar value below the surrogate range decodes back to
the same value. -/
theorem toNat_ofNat_lt {n : Nat} (h : n < 55296) : (Char.ofNat n).toNat = n := by
  unfold Char.ofNat
  rw [dif_pos (Or.inl h)]
  simp [Char.ofNatAux, Char.toNat, UInt32.toNat, UInt32.ofNatCore]

/-- Bool equality from the corresponding iff. -/
theorem bool_ext {a b : Bool} (h : a = true ↔ b = true) : a = b := by
  cases a <;> cases b <;> simp_all

/-- Uppercasing never produces a lowercase ASCII letter. -/
theorem pyToUpper_not_lower (c : Char) :
    ¬(97 ≤ (pyToUpper c).toNat ∧ (pyToUpper c).toNat ≤ 122) := by
  unfold pyToUpper
  split
  · next h =>
    rw [toNat_ofNat_lt (by omega)]
    omega
  · next h => exact h

/-- Uppercasing is idempotent. -/
theorem pyToUpper_idem (c : Char) : pyToUpper (pyToUpper c) = pyToUpper c := by
  have h := pyToUpper_not_lower c
  generalize hx : pyToUpper c = x at h ⊢
  unfold pyToUpper
  rw [if_neg h]

/-- Uppercasing preserves whitespace-status in both directions. -/
theorem pyIsSpace_pyToUpper (c : Char) : pyIsSpace (pyToUpper c) = pyIsSpace c := by
  apply bool_ext
  by_cases hc : 97 ≤ c.toNat ∧ c.toNat ≤ 122
  · unfold pyToUpper pyIsSpace
    rw [if_pos hc, toNat_ofNat_lt (by omega)]
    simp only [Bool.or_eq_true, decide_eq_true_eq]
    omega
  · unfold pyToUpper
    rw [if_neg hc]

/-! ### Trimming lemmas -/

/-- If `dropWhile` fixes `a :: t`, the head fails the predicate. -/
theorem head_false_of_dropWhile_fix {p : Char → Bool} {a : Char} {t : List Char}
    (h : List.dropWhile p (a :: t) = a :: t) : p a = false := by
  by_cases hp : p a = true
  · rw [List.dropWhile_cons_of_pos hp] at h
    have hle := (List.dropWhile_sublist (l := t) p).length_le
    rw [h, List.length_cons] at hle
    omega
  · simpa using hp

/-- `dropWhile` fixes every prefix of a list it fixes. -/
theorem dropWhile_fix_append {p : Char → Bool} {u w : List Char}
    (h : List.dropWhile p (u ++ w) = u ++ w) : List.dropWhile p u = u := by
  cases u with
  | nil => rfl
  | cons a t =>
    rw [List.cons_append] at h
    exact List.dropWhile_cons_of_neg (by simp [head_false_of_dropWhile_fix h])

/-- A prefix all of whose characters satisfy the predicate is transparent to
`dropWhile`. -/
theorem dropWhile_append_all {p : Char → Bool} {w : List Char}
    (hw : ∀ c ∈ w, p c = true) (x : List Char) :
    List.dropWhile p (w ++ x) = List.dropWhile p x := by
  induction w with
  | nil => rfl
  | cons a t ih =>
    rw [List.cons_append, List.dropWhile_cons_of_pos (hw a (List.mem_cons_self a t))]
    exact ih (fun c hc => hw c (List.mem_cons_of_mem a hc))

/-- A list none of whose characters satisfies the predicate is untouched by
`dropWhile`. -/
theorem dropWhile_all_false {p : Char → Bool} {u : List Char}
    (hu : ∀ c ∈ u, p c = false) : List.dropWhile p u = u := by
  cases u with
  | nil => rfl
  | cons a t => exact List.dropWhile_cons_of_neg (by simp [hu a (List.mem_cons_self a t)])

/-- Stripping is idempotent. -/
theorem pyStrip_idem (l : List Char) : pyStrip (pyStrip l) = pyStrip l := by
  unfold pyStrip
  have hfix : List.dropWhile pyIsSpace
      (List.rdropWhile pyIsSpace (l.dropWhile pyIsSpace)) =
      List.rdropWhile pyIsSpace (l.dropWhile pyIsSpace) := by
    obtain ⟨w, hw⟩ := List.rdropWhile_prefix pyIsSpace (l.dropWhile pyIsSpace)
    have hidem := List.dropWhile_idempotent pyIsSpace l
    rw [← hw] at hidem
    exact dropWhile_fix_append hidem
  rw [hfix, List.rdropWhile_idempotent]

/-- `dropWhile` commutes with mapping a predicate-preserving function. -/
theorem dropWhile_map_comm {p : Char → Bool} {f : Char → Char}
    (hpf : ∀ c, p (f c) = p c) (l : List Char) :
    List.dropWhile p (l.map f) = (List.dropWhile p l).map f := by
  rw [List.dropWhile_map, show (p ∘ f) = p from funext hpf]

/-- `rdropWhile` commutes with mapping a predicate-preserving function. -/
theorem rdropWhile_map_comm {p : Char → Bool} {f : Char → Char}
    (hpf : ∀ c, p (f c) = p c) (l : List Char) :
    List.rdropWhile p (l.map f) = (List.rdropWhile p l).map f := by
  unfold List.rdropWhile
  rw [show (l.map f).reverse = l.reverse.map f by simp, dropWhile_map_comm hpf,
    show ((l.reverse.dropWhile p).map f).reverse = (l.reverse.dropWhile p).reverse.map f by simp]

/-- Stripping commutes with mapping a whitespace-preserving function. -/
theorem pyStrip_map_comm {f : Char → Char}
    (hpf : ∀ c, pyIsSpace (f c) = pyIsSpace c) (l : List Char) :
    pyStrip (l.map f) = (pyStrip l).map f := by
  unfold pyStrip
  rw [dropWhile_map_comm hpf, rdropWhile_map_comm hpf]

/-- Mapping `pyToUpper` twice is mapping it once. -/
theorem map_pyToUpper_idem (l : List Char) :
    (l.map pyToUpper).map pyToUpper = l.map pyToUpper := by
  rw [List.map_map, show (pyToUpper ∘ pyToUpper) = pyToUpper from funext pyToUpper_idem]

/-- Stripping a string that is whitespace-padding around a whitespace-free
core returns the core. -/
theorem pyStrip_pad {ws1 ws2 v : List Char}
    (hw1 : ∀ c ∈ ws1, pyIsSpace c = true) (hw2 : ∀ c ∈ ws2, pyIsSpace c = true)
    (hv : ∀ c ∈ v, pyIsSpace c = false) :
    pyStrip (ws1 ++ v ++ ws2) = v := by
  unfold pyStrip
  rw [List.append_assoc, dropWhile_append_all hw1]
  cases v with
  | nil =>
    rw [List.nil_append, List.dropWhile_eq_nil_iff.mpr (fun x hx => by simp [hw2 x hx])]
    simp [List.rdropWhile]
  | cons a t =>
    rw [List.cons_append,
      List.dropWhile_cons_of_neg (by simp [hv a (List.mem_cons_self a t)])]
    unfold List.rdropWhile
    rw [show (a :: (t ++ ws2)).reverse = ws2.reverse ++ (a :: t).reverse by simp,
      dropWhile_append_all (fun c hc => hw2 c (List.mem_reverse.mp hc)),
      dropWhile_all_false (fun c hc => hv c (List.mem_reverse.mp hc)),
      List.reverse_reverse]

/-- Stripping an all-whitespace string gives the empty string. -/
theorem pyStrip_all_space {l : List Char} (h : ∀ c ∈ l, pyIsSpace c = true) :
    pyStrip l = [] := by
  unfold pyStrip
  rw [List.dropWhile_eq_nil_iff.mpr (fun x hx => by simp [h x hx])]
  simp [List.rdropWhile]

/-! ### Normalization lemmas -/

/-- The characters of a normalized code. -/
theorem normCode_data (code : Option String) :
    (normCode code).data = (pyStrip (code.getD "").data).map pyToUpper := rfl

/-- Normalization is idempotent. -/
theorem normCode_idem (code : Option String) :
    normCode (some (normCode code)) = normCode code := by
  show String.mk ((pyStrip (normCode code).data).map pyToUpper) = normCode code
  rw [normCode_data, pyStrip_map_comm pyIsSpace_pyToUpper, pyStrip_idem, map_pyToUpper_idem]
  rfl

/-- A normalized code never contains a lowercase ASCII letter. -/
theorem normCode_not_lower (code : Option String) :
    ∀ c ∈ (normCode code).data, ¬(97 ≤ c.toNat ∧ c.toNat ≤ 122) := by
  intro c hc
  rw [normCode_data] at hc
  obtain ⟨c₀, _, rfl⟩ := List.mem_map.mp hc
  exact pyToUpper_not_lower c₀

/-! ### The IGNORECASE flag on normalized input -/

/-- On a string without lowercase ASCII letters the case-insensitive Japan
stock pattern agrees with the case-sensitive one. -/
theorem jpCI_eq_CS {l : List Char}
    (h : ∀ c ∈ l, ¬(97 ≤ c.toNat ∧ c.toNat ≤ 122)) :
    jpStockPatternCI l = jpStockPatternCS l := by
  have h1 : (l.take 2 == ['J', 'p']) = false := by
    rw [beq_eq_false_iff_ne]
    intro he
    exact h 'p' (List.take_subset 2 l (by rw [he]; simp)) (by decide)
  have h2 : (l.take 2 == ['j', 'P']) = false := by
    rw [beq_eq_false_iff_ne]
    intro he
    exact h 'j' (List.take_subset 2 l (by rw [he]; simp)) (by decide)
  have h3 : (l.take 2 == ['j', 'p']) = false := by
    rw [beq_eq_false_iff_ne]
    intro he
    exact h 'j' (List.take_subset 2 l (by rw [he]; simp)) (by decide)
  have h4 : (l.drop 4 == ['.', 't']) = false := by
    rw [beq_eq_false_iff_ne]
    intro he
    exact h 't' (List.drop_subset 4 l (by rw [he]; simp)) (by decide)
  unfold jpStockPatternCI jpStockPatternCS jpAlt1CI jpAlt1CS jpAlt3CI jpAlt3CS
  rw [h1, h2, h3, h4]
  simp

/-- `is_jp_stock_code` evaluates the pattern on a normalized (so
lowercase-free) string, where the IGNORECASE flag never fires. -/
theorem is_jp_stock_code_eq_CS (code : Option String) :
    is_jp_stock_code code = jpStockPatternCS (normCode code).data :=
  jpCI_eq_CS (normCode_not_lower code)

/-! ### Claim theorems -/

/-- Claim C8: the case-insensitivity flag on the Japan stock pattern is
redundant: for every input string, `is_jp_stock_code` equals the result of
matching the normalized code against the same pattern compiled
case-sensitively, because the input is uppercased before matching. -/
theorem jp_ignorecase_redundant :
    ∀ code : Option String,
      is_jp_stock_code code = jpStockPatternCS (normCode code).data :=
  is_jp_stock_code_eq_CS

/-- Claim C7: normalization is idempotent, and every public function is
invariant under normalization of its argument; in particular
`is_us_index_code " spx " = is_us_index_code "SPX"`. -/
theorem normalize_idempotent_invariant :
    (∀ s : String, normCode (some (normCode (some s))) = normCode (some s)) ∧
    (∀ code, is_us_index_code (some (normCode code)) = is_us_index_code code) ∧
    (∀ code, is_us_stock_code (some (normCode code)) = is_us_stock_code code) ∧
    (∀ code, get_us_index_yf_symbol (some (normCode code)) = get_us_index_yf_symbol code) ∧
    (∀ code, is_jp_stock_code (some (normCode code)) = is_jp_stock_code code) ∧
    (∀ code, get_jp_stock_yf_symbol (some (normCode code)) = get_jp_stock_yf_symbol code) ∧
    (∀ code, is_jp_index_code (some (normCode code)) = is_jp_index_code code) ∧
    (∀ code, get_jp_index_yf_symbol (some (normCode code)) = get_jp_index_yf_symbol code) ∧
    is_us_index_code (some " spx ") = is_us_index_code (some "SPX") := by
  refine ⟨fun s => normCode_idem (some s), ?_, ?_, ?_, ?_, ?_, ?_, ?_, by decide⟩ <;>
    intro code <;>
    simp only [is_us_index_code, is_us_stock_code, get_us_index_yf_symbol, is_jp_stock_code,
      get_jp_stock_yf_symbol, is_jp_index_code, get_jp_index_yf_symbol, normCode_idem]

/-- Claim C3: a code recognized as an index is never classified as a stock of
the same market; in particular `is_jp_stock_code "N225"` is false. -/
theorem index_never_stock :
    (∀ code, is_us_index_code code = true → is_us_stock_code code = false) ∧
    (∀ code, is_jp_index_code code = true → is_jp_stock_code code = false) ∧
    is_jp_stock_code (some "N225") = false := by
  refine ⟨?_, ?_, by decide⟩
  · intro code h
    unfold is_us_index_code at h
    unfold is_us_stock_code
    rw [if_pos h]
  · intro code h
    unfold is_jp_index_code jpIndexLookup at h
    rw [Option.isSome_map'] at h
    cases hf : JP_INDEX_MAPPING.find? (fun e => e.1 == normCode code) with
    | none => rw [hf] at h; simp at h
    | some e =>
      have hmem := List.mem_of_find?_eq_some hf
      have hkey : e.1 = normCode code := by simpa using List.find?_some hf
      unfold is_jp_stock_code
      rw [← hkey]
      fin_cases hmem <;> decide

/-- Witness for C3 at the index keys "SPX" and "TOPIX". -/
theorem index_never_stock_witness :
    is_us_stock_code (some "SPX") = false ∧ is_jp_stock_code (some "TOPIX") = false :=
  ⟨index_never_stock.1 (some "SPX") (by decide),
   index_never_stock.2.1 (some "TOPIX") (by decide)⟩

/-- Claim C9 counterexample: contrary to the claim, the three-letter string
"SPX" DOES match the US stock pattern — three letters lie within the pattern's
1–5 letter range. -/
theorem spx_matches_us_stock_pattern : usStockPattern "SPX".data = true := by decide

/-- Claim C9 (amended): "SPX" matches the US stock pattern, and
`is_us_stock_code "SPX"` is false solely because the index-table check takes
precedence ("SPX" is a US index key). -/
theorem spx_not_stock_by_precedence :
    usStockPattern (normCode (some "SPX")).data = true ∧
    is_us_index_code (some "SPX") = true ∧
    is_us_stock_code (some "SPX") = false := by decide

/-- Claim C2: `is_us_stock_code` is false on US index keys (precedence), and
otherwise equals the anchored full-string US stock pattern match; the spec's
examples hold, and the anchoring is visible on "AAPL1", whose proper substring
"AAPL" matches the pattern while the full string does not. -/
theorem us_stock_classification :
    (∀ code, is_us_index_code code = true → is_us_stock_code code = false) ∧
    (∀ code, is_us_index_code code = false →
      is_us_stock_code code = usStockPattern (normCode code).data) ∧
    is_us_stock_code (some "AAPL") = true ∧
    is_us_stock_code (some "TSLA") = true ∧
    is_us_stock_code (some "BRK.B") = true ∧
    is_us_stock_code (some "600519") = false ∧
    is_us_stock_code (some "AAPL1") = false := by
  refine ⟨?_, ?_, by decide, by decide, by decide, by decide, by decide⟩
  · intro code h
    unfold is_us_index_code at h
    unfold is_us_stock_code
    rw [if_pos h]
  · intro code h
    unfold is_us_index_code at h
    unfold is_us_stock_code
    rw [if_neg (by simp [h])]

/-- Witness for C2 at concrete inputs "SPX" (an index key) and "AAPL". -/
theorem us_stock_classification_witness :
    is_us_stock_code (some "SPX") = false ∧
    is_us_stock_code (some "AAPL") = usStockPattern (normCode (some "AAPL")).data :=
  ⟨us_stock_classification.1 (some "SPX") (by decide),
   us_stock_classification.2.1 (some "AAPL") (by decide)⟩

/-- The spec's four-step algorithm on the normalized code, step for step:
(1) starts with "JP", total length 6, remaining four characters all digits →
("<4digits>.T", absent); (2) ends with ".T" and the prefix before ".T" is
exactly 4 digits → (code unchanged, absent); (3) exactly 4 digits →
("<code>.T", absent); (4) otherwise (absent, absent). -/
def jpFourStepSpec (n : String) : Option String × Option String :=
  if n.data.take 2 = ['J', 'P'] ∧ n.data.length = 6 ∧ pyIsDigit (n.data.drop 2) then
    (some (String.mk (n.data.drop 2 ++ ['.', 'T'])), none)
  else if n.data.drop (n.data.length - 2) = ['.', 'T'] ∧
      (n.data.take (n.data.length - 2)).length = 4 ∧
      pyIsDigit (n.data.take (n.data.length - 2)) then
    (some n, none)
  else if pyIsDigit n.data ∧ n.data.length = 4 then
    (some (String.mk (n.data ++ ['.', 'T'])), none)
  else (none, none)

/-- Claim C1: `get_jp_stock_yf_symbol` is exactly the spec's four-step
algorithm on the normalized code; the four spec examples hold; and the name
component is absent in every case. -/
theorem jp_stock_translation :
    (∀ code, get_jp_stock_yf_symbol code = jpFourStepSpec (normCode code)) ∧
    get_jp_stock_yf_symbol (some "JP7203") = (some "7203.T", none) ∧
    get_jp_stock_yf_symbol (some "7203.T") = (some "7203.T", none) ∧
    get_jp_stock_yf_symbol (some "7203") = (some "7203.T", none) ∧
    get_jp_stock_yf_symbol (some "AAPL") = (none, none) ∧
    (∀ code, (get_jp_stock_yf_symbol code).2 = none) := by
  refine ⟨?_, by decide, by decide, by decide, by decide, ?_⟩
  · intro code
    unfold get_jp_stock_yf_symbol jpTranslate jpFourStepSpec
    refine if_congr Iff.rfl rfl (if_congr ?_ rfl (if_congr Iff.rfl rfl rfl))
    constructor
    · rintro ⟨a, b, c⟩; exact ⟨a, c, b⟩
    · rintro ⟨a, b, c⟩; exact ⟨a, c, b⟩
  · intro code
    unfold get_jp_stock_yf_symbol jpTranslate
    split_ifs <;> rfl

/-- Claim C6: absent, empty, or all-whitespace input normalizes to the empty
string, so every predicate returns false and every lookup returns
(absent, absent).  All embedded functions are total by construction — the
"never throws" part of the claim holds trivially in the embedding. -/
theorem degenerate_input_safe :
    ∀ code : Option String,
      (code = none ∨ code = some "" ∨ ∀ c ∈ (code.getD "").data, pyIsSpace c = true) →
      normCode code = "" ∧
      is_us_index_code code = false ∧
      is_us_stock_code code = false ∧
      is_jp_stock_code code = false ∧
      is_jp_index_code code = false ∧
      get_us_index_yf_symbol code = (none, none) ∧
      get_jp_stock_yf_symbol code = (none, none) ∧
      get_jp_index_yf_symbol code = (none, none) := by
  intro code h
  have hws : ∀ c ∈ (code.getD "").data, pyIsSpace c = true := by
    rcases h with rfl | rfl | h3
    · decide
    · decide
    · exact h3
  have hnorm : normCode code = "" := by
    unfold normCode
    rw [pyStrip_all_space hws]
    rfl
  refine ⟨hnorm, ?_, ?_, ?_, ?_, ?_, ?_, ?_⟩ <;>
    simp only [is_us_index_code, is_us_stock_code, is_jp_stock_code, is_jp_index_code,
      get_us_index_yf_symbol, get_jp_stock_yf_symbol, get_jp_index_yf_symbol, hnorm] <;>
    decide

/-- Witness for C6 at the concrete whitespace-only input " \t ". -/
theorem degenerate_input_safe_witness :
    normCode (some " \t ") = "" ∧
    is_us_index_code (some " \t ") = false ∧
    is_us_stock_code (some " \t ") = false ∧
    is_jp_stock_code (some " \t ") = false ∧
    is_jp_index_code (some " \t ") = false ∧
    get_us_index_yf_symbol (some " \t ") = (none, none) ∧
    get_jp_stock_yf_symbol (some " \t ") = (none, none) ∧
    get_jp_index_yf_symbol (some " \t ") = (none, none) :=
  degenerate_input_safe (some " \t ") (Or.inr (Or.inr (by decide)))

/-- Claim C5: `get_jp_index_yf_symbol` looks the normalized code up in the
Japan index table — a found key yields exactly its mapped pair, a miss yields
(absent, absent) — and the spec's examples hold. -/
theorem jp_index_lookup_spec :
    (∀ code, jpIndexLookup (normCode code) = none →
      get_jp_index_yf_symbol code = (none, none)) ∧
    (∀ k sym nm, (k, sym, nm) ∈ JP_INDEX_MAPPING →
      ∀ code, normCode code = k → get_jp_index_yf_symbol code = (some sym, some nm)) ∧
    get_jp_index_yf_symbol (some "N225") = (some "^N225", some "日经225指数") ∧
    get_jp_index_yf_symbol (some "TOPIX") = (some "^TOPX", some "东证指数") ∧
    get_jp_index_yf_symbol (some "JP7203") = (none, none) := by
  refine ⟨?_, ?_, by decide, by decide, by decide⟩
  · intro code h
    unfold get_jp_index_yf_symbol
    rw [h]
  · intro k sym nm hmem code hnorm
    unfold get_jp_index_yf_symbol
    rw [hnorm]
    fin_cases hmem <;> decide

/-- Witness for C5: a hit (" n225 " normalizes to the key "N225") and a miss. -/
theorem jp_index_lookup_spec_witness :
    get_jp_index_yf_symbol (some " n225 ") = (some "^N225", some "日经225指数") ∧
    get_jp_index_yf_symbol (some "JP7203") = (none, none) :=
  ⟨jp_index_lookup_spec.2.1 "N225" "^N225" "日经225指数" (by decide) (some " n225 ") (by decide),
   jp_index_lookup_spec.1 (some "JP7203") (by decide)⟩

/-- US index keys contain no whitespace. -/
theorem us_keys_no_space :
    ∀ e ∈ US_INDEX_MAPPING, ∀ c ∈ e.1.data, pyIsSpace c = false := by decide

/-- Normalizing whitespace padding around a case-variant of a whitespace-free
key yields the key. -/
theorem normCode_pad_variant {k : String} (hk : ∀ c ∈ k.data, pyIsSpace c = false)
    {ws1 ws2 v : List Char}
    (hw1 : ∀ c ∈ ws1, pyIsSpace c = true) (hw2 : ∀ c ∈ ws2, pyIsSpace c = true)
    (hup : v.map pyToUpper = k.data) :
    normCode (some (String.mk (ws1 ++ v ++ ws2))) = k := by
  have hv : ∀ c ∈ v, pyIsSpace c = false := by
    intro c hc
    have h1 : pyToUpper c ∈ k.data := hup ▸ List.mem_map_of_mem pyToUpper hc
    have h2 := hk _ h1
    rwa [pyIsSpace_pyToUpper] at h2
  unfold normCode
  rw [show ((some (String.mk (ws1 ++ v ++ ws2))).getD "").data = ws1 ++ v ++ ws2 from rfl,
    pyStrip_pad hw1 hw2 hv, hup]

/-- Claim C4: every US index key, under arbitrary whitespace padding and
case-variation, is recognized by `is_us_index_code` and mapped by
`get_us_index_yf_symbol` to exactly the pair the table holds; any input whose
normalized form is not a key yields (absent, absent). -/
theorem us_index_table_exact :
    (∀ k sym nm, (k, sym, nm) ∈ US_INDEX_MAPPING →
      ∀ ws1 ws2 v : List Char,
        (∀ c ∈ ws1, pyIsSpace c = true) → (∀ c ∈ ws2, pyIsSpace c = true) →
        v.map pyToUpper = k.data →
        is_us_index_code (some (String.mk (ws1 ++ v ++ ws2))) = true ∧
        get_us_index_yf_symbol (some (String.mk (ws1 ++ v ++ ws2))) = (some sym, some nm)) ∧
    (∀ code, usIndexLookup (normCode code) = none →
      get_us_index_yf_symbol code = (none, none)) := by
  constructor
  · intro k sym nm hmem ws1 ws2 v hw1 hw2 hup
    have hk := us_keys_no_space (k, sym, nm) hmem
    have hnorm := normCode_pad_variant hk hw1 hw2 hup
    constructor
    · unfold is_us_index_code
      rw [hnorm]
      fin_cases hmem <;> decide
    · unfold get_us_index_yf_symbol
      rw [hnorm]
      fin_cases hmem <;> decide
  · intro code h
    unfold get_us_index_yf_symbol
    rw [h]

/-- Witness for C4: " spx " — whitespace padding around the lowercase variant
of the key "SPX". -/
theorem us_index_table_exact_witness :
    is_us_index_code (some (String.mk ([' '] ++ "spx".data ++ [' ']))) = true ∧
    get_us_index_yf_symbol (some (String.mk ([' '] ++ "spx".data ++ [' ']))) =
      (some "^GSPC", some "标普500指数") :=
  us_index_table_exact.1 "SPX" "^GSPC" "标普500指数" (by decide)
    [' '] [' '] "spx".data (by decide) (by decide) (by decide)

/-! ### The two Japan stock recognizers -/

/-- A nonempty all-decimal-digit string passes `str.isdigit`. -/
theorem pyIsDigit_of_all_reDigit {x : List Char} (hne : x.length ≠ 0)
    (hx : ∀ c ∈ x, reDigit c = true) : pyIsDigit x = true := by
  cases x with
  | nil => simp at hne
  | cons a t =>
    simp only [pyIsDigit, List.isEmpty_cons, Bool.not_false, Bool.true_and, List.all_eq_true]
    intro c hc
    simp [pyIsDigitChar, hx c hc]

/-- Conversely, when no character of the string is `isdigit`-only,
`str.isdigit` means: nonempty and all decimal digits. -/
theorem all_reDigit_of_pyIsDigit {x : List Char}
    (hsub : ∀ c ∈ x, pyIsDigitChar c = true → reDigit c = true)
    (h : pyIsDigit x = true) : x.length ≠ 0 ∧ ∀ c ∈ x, reDigit c = true := by
  unfold pyIsDigit at h
  simp only [Bool.and_eq_true, Bool.not_eq_true', List.all_eq_true] at h
  refine ⟨?_, fun c hc => hsub c hc (h.2 c hc)⟩
  intro hlen
  rw [List.length_eq_zero] at hlen
  subst hlen
  simp at h

/-- A match of the Japan stock pattern makes the translator produce a symbol. -/
theorem jpTranslate_some_of_CS {n : String} (h : jpStockPatternCS n.data = true) :
    (jpTranslate n).1.isSome = true := by
  unfold jpTranslate
  split_ifs with h1 h2 h3
  · rfl
  · rfl
  · rfl
  · exfalso
    unfold jpStockPatternCS jpAlt1CS jpAlt2 jpAlt3CS at h
    simp only [Bool.or_eq_true, Bool.and_eq_true, beq_iff_eq, List.all_eq_true] at h
    rcases h with (⟨⟨hl, ht⟩, hdg⟩ | ⟨hl, hdg⟩) | ⟨⟨hl, hdg⟩, ht⟩
    · exact h1 ⟨ht, hl, pyIsDigit_of_all_reDigit (by rw [List.length_drop, hl]; decide) hdg⟩
    · exact h3 ⟨pyIsDigit_of_all_reDigit (by rw [hl]; decide) hdg, hl⟩
    · have e1 : n.data.length - 2 = 4 := by omega
      refine h2 ⟨?_, ?_, ?_⟩
      · rw [e1]; exact ht
      · rw [e1]
        exact pyIsDigit_of_all_reDigit (by rw [List.length_take, hl]; decide) hdg
      · rw [e1, List.length_take, hl]; decide

/-- If the translator produces a symbol and the normalized code contains no
`isdigit`-only character, the code matches the Japan stock pattern. -/
theorem CS_of_jpTranslate_some {n : String}
    (hsub : ∀ c ∈ n.data, pyIsDigitChar c = true → reDigit c = true)
    (h : (jpTranslate n).1.isSome = true) : jpStockPatternCS n.data = true := by
  unfold jpStockPatternCS jpAlt1CS jpAlt2 jpAlt3CS
  simp only [Bool.or_eq_true, Bool.and_eq_true, beq_iff_eq, List.all_eq_true]
  unfold jpTranslate at h
  split_ifs at h with h1 h2 h3
  · obtain ⟨ht, hl, hdg⟩ := h1
    obtain ⟨-, hall⟩ := all_reDigit_of_pyIsDigit
      (fun c hc hpc => hsub c (List.mem_of_mem_drop hc) hpc) hdg
    exact Or.inl (Or.inl ⟨⟨hl, ht⟩, hall⟩)
  · obtain ⟨he, hdg, hlen⟩ := h2
    have hmin : n.data.length - 2 ≤ n.data.length := Nat.sub_le _ _
    rw [List.length_take, Nat.min_eq_left hmin] at hlen
    have hl : n.data.length = 6 := by omega
    have e1 : n.data.length - 2 = 4 := by omega
    rw [e1] at he hdg
    obtain ⟨-, hall⟩ := all_reDigit_of_pyIsDigit
      (fun c hc hpc => hsub c (List.mem_of_mem_take hc) hpc) hdg
    exact Or.inr ⟨⟨hl, hall⟩, he⟩
  · obtain ⟨hdg, hl⟩ := h3
    obtain ⟨-, hall⟩ := all_reDigit_of_pyIsDigit (fun c hc hpc => hsub c hc hpc) hdg
    exact Or.inl (Or.inr ⟨hl, hall⟩)
  · simp at h

/-- Claim C10 counterexample: on "12²3" — whose superscript two is accepted by
`str.isdigit` but rejected by the regex class `\d` — the translator returns
the symbol "12²3.T" while the classifier `is_jp_stock_code` returns false, so
the two recognizers do not accept the same set of codes. -/
theorem jp_recognizers_differ :
    (get_jp_stock_yf_symbol (some "12²3")).1 = some "12²3.T" ∧
    is_jp_stock_code (some "12²3") = false := by decide

/-- Claim C10 (amended): a match of `is_jp_stock_code` always yields a
non-absent translated symbol, and the converse — hence the claimed
equivalence — holds for every input whose normalized form contains no
character that `str.isdigit` accepts but `\d` rejects (superscript digits);
in particular for all ASCII input. -/
theorem jp_recognizer_agreement :
    ∀ code : Option String,
      (is_jp_stock_code code = true → (get_jp_stock_yf_symbol code).1.isSome = true) ∧
      ((∀ c ∈ (normCode code).data, pyIsDigitChar c = true → reDigit c = true) →
        ((get_jp_stock_yf_symbol code).1.isSome = true ↔ is_jp_stock_code code = true)) := by
  intro code
  have hfwd : is_jp_stock_code code = true →
      (get_jp_stock_yf_symbol code).1.isSome = true := by
    intro h
    rw [is_jp_stock_code_eq_CS] at h
    exact jpTranslate_some_of_CS h
  refine ⟨hfwd, fun hd => ⟨fun h => ?_, hfwd⟩⟩
  rw [is_jp_stock_code_eq_CS]
  exact CS_of_jpTranslate_some hd h

/-- Witness for C10 at the ASCII input "7203". -/
theorem jp_recognizer_agreement_witness :
    (get_jp_stock_yf_symbol (some "7203")).1.isSome = true :=
  ((jp_recognizer_agreement (some "7203")).2 (by decide)).mpr (by decide)
